import Mathlib

/-!
Verification of the review-harvesting pipeline of `travel_agent.py`
(class `TravelRecommendationAgent`).

Shallow embedding: text is `List Char` (Python strings of code points);
the live browser page is a `Page` structure supplying, for each CSS
selector / query, the texts of the matching DOM nodes (`none` models the
query raising an exception, mirroring the bare `except:` handlers of the
source).  Stateful operations on the Selenium session are modelled by a
trace of events (`Ev`) plus the final frame scope (`Scope`).
-/

set_option maxRecDepth 10000

abbrev Str := List Char

/-- Python ASCII whitespace as stripped by `str.strip` and matched by the
regex class used in the source (space, tab, newline, vertical tab, form
feed, carriage return). -/
def pySpace (c : Char) : Bool :=
  c = ' ' || c = '\t' || c = '\n' || c = Char.ofNat 11 || c = Char.ofNat 12 || c = '\r'

/-- Python `str.strip()`: remove leading and trailing whitespace. -/
def pyStrip (l : Str) : Str :=
  ((l.dropWhile pySpace).reverse.dropWhile pySpace).reverse

/-- Python substring containment `needle in hay` on strings. -/
def strIn (needle hay : Str) : Bool :=
  if needle.isPrefixOf hay then true
  else
    match hay with
    | [] => false
    | _ :: t => strIn needle t

theorem isPrefixOf_iff_ex (l m : Str) : l.isPrefixOf m = true ↔ ∃ t, m = l ++ t := by
  induction l generalizing m with
  | nil =>
    simp [List.isPrefixOf]
  | cons a l ih =>
    cases m with
    | nil =>
      simp [List.isPrefixOf]
    | cons b m =>
      simp only [List.isPrefixOf, Bool.and_eq_true, beq_iff_eq, ih, List.cons_append,
        List.cons.injEq]
      constructor
      · rintro ⟨rfl, t, rfl⟩
        exact ⟨t, rfl, rfl⟩
      · rintro ⟨t, rfl, rfl⟩
        exact ⟨rfl, t, rfl⟩

theorem strIn_nil (n : Str) : strIn n [] = n.isPrefixOf [] := by
  rw [strIn]
  cases hn : n.isPrefixOf [] <;> simp [hn]

theorem strIn_cons (n : Str) (c : Char) (t : Str) :
    strIn n (c :: t) = if n.isPrefixOf (c :: t) then true else strIn n t := by
  rw [strIn]

theorem strIn_iff_ex (n h : Str) : strIn n h = true ↔ ∃ a b, h = a ++ n ++ b := by
  induction h with
  | nil =>
    rw [strIn_nil, isPrefixOf_iff_ex]
    constructor
    · rintro ⟨t, ht⟩
      exact ⟨[], t, by simpa using ht⟩
    · rintro ⟨a, b, hab⟩
      have ha : a = [] := by
        cases a with
        | nil => rfl
        | cons x xs => simp at hab
      subst ha
      exact ⟨b, by simpa using hab⟩
  | cons c t ih =>
    rw [strIn_cons]
    split
    · rename_i hpre
      rcases (isPrefixOf_iff_ex n (c :: t)).mp hpre with ⟨u, hu⟩
      simp only [true_iff]
      exact ⟨[], u, by simpa using hu⟩
    · rename_i hpre
      rw [ih]
      constructor
      · rintro ⟨a, b, rfl⟩
        exact ⟨c :: a, b, rfl⟩
      · rintro ⟨a, b, hab⟩
        cases a with
        | nil =>
          exfalso
          apply hpre
          rw [isPrefixOf_iff_ex]
          exact ⟨b, by simpa using hab⟩
        | cons x a =>
          simp only [List.cons_append, List.cons.injEq] at hab
          exact ⟨a, b, hab.2⟩

theorem strIn_false_of_cons {n : Str} {c : Char} {t : Str}
    (h : strIn n (c :: t) = false) : strIn n t = false := by
  by_contra hne
  have ht : strIn n t = true := by
    cases hv : strIn n t with
    | false => exact absurd hv hne
    | true => rfl
  rcases (strIn_iff_ex n t).mp ht with ⟨a, b, rfl⟩
  have : strIn n (c :: (a ++ n ++ b)) = true := by
    rw [strIn_iff_ex]
    exact ⟨c :: a, b, rfl⟩
  rw [this] at h
  exact Bool.true_eq_false.mp h

/-! ## Extraction tier filters (travel_agent.py, `crawl_reviews`) -/

/-- Keyword set of the Tier-2 filter (line 204 of the source). -/
def kw_list2 : List Str :=
  ["맛있".data, "좋았".data, "추천".data, "별로".data, "다시".data,
   "친절".data, "분위기".data, "최고".data, "재밌".data, "흥미".data]

/-- Keyword set of the Tier-3 filter (line 223 of the source). -/
def kw_list3 : List Str :=
  ["좋다".data, "추천".data, "별로".data, "맛있".data, "친절".data, "다시".data]

/-- Tier-2 acceptance predicate (lines 202-205):
`text and len(text) > 20 and len(text) < 1000 and any(kw in text for kw in ...)`. -/
def tier2Accept (text : Str) : Bool :=
  !text.isEmpty && decide (20 < text.length) && decide (text.length < 1000) &&
    kw_list2.any (fun kw => strIn kw text)

/-- Tier-3 acceptance predicate (line 223):
`20 < len(text) < 500 and any(kw in text for kw in ...)`. -/
def tier3Accept (text : Str) : Bool :=
  decide (20 < text.length) && decide (text.length < 500) &&
    kw_list3.any (fun kw => strIn kw text)

/-- Tier-1 accumulation over the matched nodes of one selector
(lines 170-175): trim each node text, accept when non-empty and longer
than 10 characters, stop once `maxR` snippets are accumulated.  A node
whose text read raises (`none`) aborts the scan — Tier 1 has no inner
`try`, so the exception propagates to the selector-level `except:` of
line 178 — keeping the snippets accepted so far; the Bool component
records whether the scan was aborted this way. -/
def collectT1 (maxR : Nat) (acc : List Str) : List (Option Str) → List Str × Bool
  | [] => (acc, false)
  | none :: _ => (acc, true)
  | some raw :: ts =>
    let text := pyStrip raw
    if !text.isEmpty && decide (10 < text.length) then
      let acc' := acc ++ [text]
      if maxR ≤ acc'.length then (acc', false) else collectT1 maxR acc' ts
    else collectT1 maxR acc ts

/-- Tier-2 accumulation over the review-list anchors (lines 191-211).
Each element is the anchor's decoded text (`none` models a per-element
extraction failure, skipped by the inner `except:`). -/
def collectT2 (maxR : Nat) (acc : List Str) : List (Option Str) → List Str
  | [] => acc
  | none :: ts => collectT2 maxR acc ts
  | some text :: ts =>
    if tier2Accept text then
      let acc' := acc ++ [text]
      if maxR ≤ acc'.length then acc' else collectT2 maxR acc' ts
    else collectT2 maxR acc ts

/-- Tier-3 accumulation over all text nodes of the page (lines 219-228):
trim each node text and apply the Tier-3 filter; `none` models a
per-element failure, skipped by the inner `except:`. -/
def collectT3 (maxR : Nat) (acc : List Str) : List (Option Str) → List Str
  | [] => acc
  | none :: ts => collectT3 maxR acc ts
  | some raw :: ts =>
    let text := pyStrip raw
    if tier3Accept text then
      let acc' := acc ++ [text]
      if maxR ≤ acc'.length then acc' else collectT3 maxR acc' ts
    else collectT3 maxR acc ts

/-- Deduplication with a seen set, keeping first occurrences
(lines 235-240 of the source). -/
def dedupSeen (seen : List Str) : List Str → List Str
  | [] => []
  | r :: rs => if r ∈ seen then dedupSeen seen rs else r :: dedupSeen (r :: seen) rs

theorem dedupSeen_nodup_aux (l : List Str) :
    ∀ seen, (dedupSeen seen l).Nodup ∧ ∀ x ∈ dedupSeen seen l, x ∉ seen := by
  induction l with
  | nil => intro seen; simp [dedupSeen]
  | cons r rs ih =>
    intro seen
    by_cases hr : r ∈ seen
    · simpa [dedupSeen, hr] using ih seen
    · rcases ih (r :: seen) with ⟨hnd, hmem⟩
      refine ⟨?_, ?_⟩
      · simp only [dedupSeen, hr, if_false, List.nodup_cons]
        refine ⟨fun hx => ?_, hnd⟩
        exact (hmem r hx) (List.mem_cons_self r seen)
      · intro x hx
        simp only [dedupSeen, hr, if_false, List.mem_cons] at hx
        rcases hx with rfl | hx
        · exact hr
        · intro hxs
          exact (hmem x hx) (List.mem_cons_of_mem r hxs)

theorem dedupSeen_nodup (l : List Str) : (dedupSeen [] l).Nodup :=
  (dedupSeen_nodup_aux l []).1

/-! ## Place-URL rewrite (travel_agent.py, `search_naver_place`, lines 120-124) -/

/-- The literal parameter key searched for by `"placePath=" in place_url`. -/
def ppKey : Str := "placePath=".data

/-- The replacement written by `re.sub(r'placePath=[^&]*', 'placePath=/review', ...)`. -/
def ppRepl : Str := "placePath=/review".data

/-- The literal appended when no `placePath` parameter is present. -/
def ppAppend : Str := "&placePath=/review".data

/-- Consume the `[^&]*` part of the regex match: drop the maximal run of
characters other than `&`. -/
def dropValue : Str → Str
  | [] => []
  | c :: rest => if c = '&' then c :: rest else dropValue rest

theorem dropValue_length_le (l : Str) : (dropValue l).length ≤ l.length := by
  induction l with
  | nil => simp [dropValue]
  | cons c rest ih =>
    rw [dropValue]
    split
    · exact Nat.le_refl _
    · exact Nat.le_trans ih (Nat.le_succ _)

/-- `re.sub(r'placePath=[^&]*', 'placePath=/review', s)`: scan left to
right; at each match of the literal key followed by a maximal run of
non-`&` characters, emit the replacement and resume after the match. -/
def subPlacePath : Str → Str
  | [] => []
  | c :: rest =>
    if ppKey.isPrefixOf (c :: rest) then
      ppRepl ++ subPlacePath (dropValue (rest.drop 9))
    else c :: subPlacePath rest
termination_by l => l.length
decreasing_by
  · simp only [List.length_cons]
    refine Nat.lt_succ_of_le (Nat.le_trans (dropValue_length_le _) ?_)
    rw [List.length_drop]
    omega
  · simp only [List.length_cons]
    omega

/-- The view-selector rewrite of `search_naver_place` (lines 120-124):
replace the value of an existing `placePath` parameter by `/review`,
otherwise append `&placePath=/review`. -/
def rewriteToReview (url : Str) : Str :=
  if strIn ppKey url then subPlacePath url else url ++ ppAppend

theorem subPlacePath_cons (c : Char) (rest : Str) :
    subPlacePath (c :: rest) =
      if ppKey.isPrefixOf (c :: rest) then
        ppRepl ++ subPlacePath (dropValue (rest.drop 9))
      else c :: subPlacePath rest := by
  rw [subPlacePath]

/-! ## Place resolution (travel_agent.py, `search_naver_place`, lines 106-132) -/

/-- Single-quote character, used inside the CSS selector literals. -/
def sqc : Char := Char.ofNat 39

/-- First place-link pattern: `a[href*='place.naver.com']`. -/
def sel_place1 : Str := "a[href*=".data ++ [sqc] ++ "place.naver.com".data ++ [sqc] ++ "]".data

/-- Second place-link pattern: `a[href*='/place/']`. -/
def sel_place2 : Str := "a[href*=".data ++ [sqc] ++ "/place/".data ++ [sqc] ++ "]".data

/-- Third place-link pattern: `.place_bluelink a`. -/
def sel_place3 : Str := ".place_bluelink a".data

/-- The ordered selector list of lines 107-111, most specific first. -/
def place_selectors : List Str := [sel_place1, sel_place2, sel_place3]

/-- The rendered search-result page: for each CSS selector, `find`
returns the matching anchors (outer `none` = `find_elements` raised);
each anchor carries the outcome of reading its `href`: `some url`, or
`none` when `get_attribute` raises or returns a value the subsequent
rewrite cannot process (either lands in the `except: continue` of
line 128). -/
structure SearchPage where
  find : Str → Option (List (Option Str))

/-- The selector loop of lines 113-129: try each pattern in order; on the
first pattern with at least one element, take the first element, read its
`href`, rewrite it to the review view and return it; when anything in
that body raises, `except: continue` (line 128) falls through to the
next pattern.  Also returns the list of selectors actually queried. -/
def searchLoop (pg : SearchPage) : List Str → Option Str × List Str
  | [] => (none, [])
  | sel :: rest =>
    match pg.find sel with
    | none =>
      let r := searchLoop pg rest
      (r.1, sel :: r.2)
    | some [] =>
      let r := searchLoop pg rest
      (r.1, sel :: r.2)
    | some (none :: _) =>
      let r := searchLoop pg rest
      (r.1, sel :: r.2)
    | some (some h :: _) => (some (rewriteToReview h), [sel])

/-- `search_naver_place` restricted to its pure extraction logic: apply
the selector cascade to the rendered result page; `none` models the
`return None` of line 132. -/
def search_naver_place (pg : SearchPage) : Option Str × List Str :=
  searchLoop pg place_selectors

/-! ## Review extraction (travel_agent.py, `crawl_reviews`, lines 138-252) -/

/-- The frame scope of the Selenium session: top-level document or inside
the `entryIframe` content frame. -/
inductive Scope where
  | top : Scope
  | inFrame : Scope
deriving DecidableEq

/-- Observable session events during one `crawl_reviews` call. -/
inductive Ev where
  | nav : Str → Ev
  | frameAttempt : Ev
  | tier1Query : Str → Ev
  | tier2Query : Ev
  | tier3Query : Ev
  | reset : Ev
deriving DecidableEq

/-- Tier-1 selector list of lines 159-163. -/
def review_selectors : List Str := [".zPfVt".data, ".YEtwtZFlx".data, "span.Wzv5Z90S4".data]

/-- The place-detail page as seen by the extractor.  `navOk = false`
models `driver.get` raising (caught by the outer `except` of line 244);
`frameOk = false` models the `entryIframe` wait timing out (line 154).
`tier1 sel` gives the nodes matched by a Tier-1 selector (outer `none`
= the query raised, line 178); each node carries its text read, inner
`none` meaning `el.text` raised — Tier 1 has no per-element `try`, so
that exception aborts the selector body into line 178's `except:`.
`tier2` gives the decoded texts of the review-list anchors (outer `none`
= the query raised, inner `none` = a per-anchor failure, skipped by the
inner `except` of line 209); `tier3` likewise for the full-page text
scan. -/
structure Page where
  navOk : Bool
  frameOk : Bool
  tier1 : Str → Option (List (Option Str))
  tier2 : Option (List (Option Str))
  tier3 : Option (List (Option Str))

/-- The Tier-1 cascade of lines 165-179: for each selector in order, run
the query; skip it when the query raises or matches nothing; otherwise
scan its elements with `collectT1`.  When the scan raises mid-loop, the
selector-level `except: continue` keeps the accumulated `reviews` and
moves to the next selector — skipping the `if reviews: break` check of
lines 176-177; when the scan completes, the loop breaks as soon as
`reviews` is non-empty.  Returns the accumulated reviews and the queried
selectors as events. -/
def tier1Loop (page : Page) (maxR : Nat) (reviews : List Str) : List Str → List Str × List Ev
  | [] => (reviews, [])
  | sel :: rest =>
    match page.tier1 sel with
    | none =>
      let r := tier1Loop page maxR reviews rest
      (r.1, Ev.tier1Query sel :: r.2)
    | some elements =>
      if elements.isEmpty then
        let r := tier1Loop page maxR reviews rest
        (r.1, Ev.tier1Query sel :: r.2)
      else
        let col := collectT1 maxR reviews elements
        if col.2 then
          let r := tier1Loop page maxR col.1 rest
          (r.1, Ev.tier1Query sel :: r.2)
        else if col.1.isEmpty then
          let r := tier1Loop page maxR col.1 rest
          (r.1, Ev.tier1Query sel :: r.2)
        else (col.1, [Ev.tier1Query sel])

/-- Tier 2 (lines 182-213): query the review-list anchors and collect
accepted texts; a raised query is swallowed and leaves `reviews`
unchanged. -/
def tier2Run (page : Page) (maxR : Nat) (reviews : List Str) : List Str × List Ev :=
  match page.tier2 with
  | none => (reviews, [Ev.tier2Query])
  | some elems => (collectT2 maxR reviews elems, [Ev.tier2Query])

/-- Tier 3 (lines 216-230): scan all text nodes and collect accepted
texts; a raised query is swallowed and leaves `reviews` unchanged. -/
def tier3Run (page : Page) (maxR : Nat) (reviews : List Str) : List Str × List Ev :=
  match page.tier3 with
  | none => (reviews, [Ev.tier3Query])
  | some elems => (collectT3 maxR reviews elems, [Ev.tier3Query])

/-- Python truthiness of the `place_url` argument (`if not place_url`). -/
def pyTruthy : Option Str → Bool
  | none => false
  | some s => !s.isEmpty

/-- `crawl_reviews` (lines 138-252) as a function of the page behaviour:
returns the extracted review set, the trace of session events, and the
final frame scope.  `scope0` is the scope the session was in when the
call started: the early return of lines 139-140 leaves it untouched; the
`finally` of lines 248-252 restores every other exit path to `Scope.top`
while emitting `Ev.reset`. -/
def crawl_reviews (page : Page) (scope0 : Scope) (place_url : Option Str) (max_reviews : Nat) :
    List Str × List Ev × Scope :=
  if pyTruthy place_url = false then ([], [], scope0)
  else
    let url := place_url.getD []
    if page.navOk = false then
      ([], [Ev.nav url, Ev.reset], Scope.top)
    else if page.frameOk = false then
      ([], [Ev.nav url, Ev.frameAttempt, Ev.reset], Scope.top)
    else
      let t1 := tier1Loop page max_reviews [] review_selectors
      let t2 := if t1.1.isEmpty then tier2Run page max_reviews t1.1 else (t1.1, [])
      let t3 := if t2.1.isEmpty then tier3Run page max_reviews t2.1 else (t2.1, [])
      ((dedupSeen [] t3.1).take max_reviews,
       Ev.nav url :: Ev.frameAttempt :: (t1.2 ++ t2.2 ++ t3.2 ++ [Ev.reset]),
       Scope.top)

/-! ## Destination recommendation (travel_agent.py, `get_travel_destinations`, lines 55-92) -/

/-- `re.sub(r'^\d+\.\s*', '', line)`: strip one leading numeric ordinal
followed by a period and optional whitespace; leave the line unchanged
when the pattern does not match at the start. -/
def stripOrdinal (l : Str) : Str :=
  let ds := l.takeWhile Char.isDigit
  let rest := l.dropWhile Char.isDigit
  if ds.isEmpty then l
  else
    match rest with
    | c :: r => if c = '.' then r.dropWhile pySpace else l
    | [] => l

/-- The response-parsing loop of lines 73-82: strip the response, split
it on newlines, keep each non-blank line with its ordinal prefix removed
(when the remainder is non-empty), and return at most 5 names. -/
def parse_destinations (text : Str) : List Str :=
  (((pyStrip text).splitOn '\n').filterMap (fun line =>
    let ls := pyStrip line
    if ls.isEmpty then none
    else
      let d := stripOrdinal ls
      if d.isEmpty then none else some d)).take 5

/-- The hardcoded fallback table of lines 87-92:
`default_destinations.get(region, [...])`. -/
def default_destinations (region : Str) : List Str :=
  if region = "서울".data then
    ["경복궁".data, "명동".data, "홍대".data, "강남".data, "한강공원".data]
  else if region = "부산".data then
    ["해운대".data, "광안리".data, "태종대".data, "감천문화마을".data, "자갈치시장".data]
  else if region = "경주".data then
    ["불국사".data, "석굴암".data, "첨성대".data, "안압지".data, "대릉원".data]
  else
    ["시청".data, "역사".data, "공원".data, "시장".data, "문화센터".data]

/-- `get_travel_destinations` (lines 55-92) as a function of the
collaborator outcome: `Except.ok text` is a successful generative call
whose response text is `text`; `Except.error` is the call (or the access
to its text) raising, which the `except` of lines 84-92 converts to the
hardcoded fallback. -/
def get_travel_destinations (region : Str) (resp : Except Unit Str) : List Str :=
  match resp with
  | Except.ok text => parse_destinations text
  | Except.error _ => default_destinations region

/-! ## Auxiliary lemmas about the crawl model -/

theorem tier1Loop_trace_only_tier1 (page : Page) (m : Nat) (sels : List Str) :
    ∀ acc, ∀ e ∈ (tier1Loop page m acc sels).2, ∃ s, e = Ev.tier1Query s := by
  induction sels with
  | nil => intro acc e he; simp [tier1Loop] at he
  | cons sel rest ih =>
    intro acc e he
    unfold tier1Loop at he
    cases hfind : page.tier1 sel with
    | none =>
      rw [hfind] at he
      simp only [List.mem_cons] at he
      rcases he with rfl | he
      · exact ⟨sel, rfl⟩
      · exact ih acc e he
    | some elements =>
      rw [hfind] at he
      cases hel : elements.isEmpty with
      | true =>
        simp only [hel, ite_true, List.mem_cons] at he
        rcases he with rfl | he
        · exact ⟨sel, rfl⟩
        · exact ih acc e he
      | false =>
        cases herr : (collectT1 m acc elements).2 with
        | true =>
          simp only [hel, herr, Bool.false_eq_true, ite_false, ite_true,
            List.mem_cons] at he
          rcases he with rfl | he
          · exact ⟨sel, rfl⟩
          · exact ih _ e he
        | false =>
          cases hrev : (collectT1 m acc elements).1.isEmpty with
          | true =>
            simp only [hel, herr, hrev, Bool.false_eq_true, ite_false, ite_true,
              List.mem_cons] at he
            rcases he with rfl | he
            · exact ⟨sel, rfl⟩
            · exact ih _ e he
          | false =>
            simp only [hel, herr, hrev, Bool.false_eq_true, ite_false, List.mem_cons,
              List.not_mem_nil, or_false] at he
            exact ⟨sel, he⟩

/-! ## Claim theorems -/

/-- C1: for every page behaviour, initial scope, `place_url` and
non-negative `maxReviews`, the review set returned by `crawl_reviews` is
deduplicated by exact string equality (no two elements are equal) and
truncated to at most `maxReviews` elements. -/
theorem crawl_reviews_dedup_bound (page : Page) (scope0 : Scope)
    (place_url : Option Str) (m : Nat) :
    (crawl_reviews page scope0 place_url m).1.Nodup ∧
    (crawl_reviews page scope0 place_url m).1.length ≤ m := by
  unfold crawl_reviews
  split
  · simp
  · split
    · simp
    · split
      · simp
      · refine ⟨?_, ?_⟩
        · exact (dedupSeen_nodup _).sublist (List.take_sublist _ _)
        · rw [List.length_take]
          exact Nat.min_le_left _ _

/-- C2: during extraction (page reached, frame entered), if Tier 1
yields at least one accepted snippet, then neither the Tier-2 query nor
the Tier-3 query is ever issued to the session. -/
theorem tier_cascade_short_circuit (page : Page) (scope0 : Scope) (u : Str) (m : Nat)
    (hu : u.isEmpty = false) (hnav : page.navOk = true) (hframe : page.frameOk = true)
    (h1 : (tier1Loop page m [] review_selectors).1 ≠ []) :
    Ev.tier2Query ∉ (crawl_reviews page scope0 (some u) m).2.1 ∧
    Ev.tier3Query ∉ (crawl_reviews page scope0 (some u) m).2.1 := by
  have h1e : (tier1Loop page m [] review_selectors).1.isEmpty = false := by
    cases hv : (tier1Loop page m [] review_selectors).1 with
    | nil => exact absurd hv h1
    | cons a l => rfl
  have ht2 : Ev.tier2Query ∉ (tier1Loop page m [] review_selectors).2 := by
    intro h
    rcases tier1Loop_trace_only_tier1 page m review_selectors [] _ h with ⟨s, hs⟩
    simp at hs
  have ht3 : Ev.tier3Query ∉ (tier1Loop page m [] review_selectors).2 := by
    intro h
    rcases tier1Loop_trace_only_tier1 page m review_selectors [] _ h with ⟨s, hs⟩
    simp at hs
  unfold crawl_reviews
  simp [pyTruthy, hu, hnav, hframe, h1e, ht2, ht3]

/-- C6: whenever `place_url` is present (truthy), every exit path of
`crawl_reviews` — success with snippets, empty result, frame-entry
failure, or an internal exception — invokes the frame-scope reset and
leaves the session scoped to the top-level document. -/
theorem crawl_reviews_scope_reset (page : Page) (scope0 : Scope)
    (place_url : Option Str) (m : Nat) (hu : pyTruthy place_url = true) :
    (crawl_reviews page scope0 place_url m).2.2 = Scope.top ∧
    Ev.reset ∈ (crawl_reviews page scope0 place_url m).2.1 := by
  unfold crawl_reviews
  rw [hu]
  simp only [Bool.true_eq_false, if_false]
  split
  · simp
  · split
    · simp
    · simp

/-- C7: if the `entryIframe` wait fails, `crawl_reviews` returns the
empty review set at once — no extraction-tier query appears in the
session trace — and the call returns normally (the timeout is swallowed,
not propagated). -/
theorem frame_entry_failure_empty (page : Page) (scope0 : Scope) (u : Str) (m : Nat)
    (hu : u.isEmpty = false) (hnav : page.navOk = true) (hframe : page.frameOk = false) :
    crawl_reviews page scope0 (some u) m =
      ([], [Ev.nav u, Ev.frameAttempt, Ev.reset], Scope.top) := by
  unfold crawl_reviews
  simp [pyTruthy, hu, hnav, hframe]

/-- C10: when `place_url` is absent (`None` or the empty string),
`crawl_reviews` returns the empty list through the early return that
precedes the `try`/`finally`: no session event happens (no navigation,
no frame-scope reset) and the session scope is left exactly as it was. -/
theorem crawl_reviews_absent_url_untouched (page : Page) (scope0 : Scope)
    (place_url : Option Str) (m : Nat) (hu : pyTruthy place_url = false) :
    crawl_reviews page scope0 place_url m = ([], [], scope0) := by
  unfold crawl_reviews
  rw [hu]
  simp

/-! ## Concrete pages used by witnesses and counterexamples -/

/-- A page whose first Tier-1 selector yields one accepted snippet. -/
def pageW : Page where
  navOk := true
  frameOk := true
  tier1 := fun _ => some [some "this review text is long enough".data]
  tier2 := some []
  tier3 := some []

/-- A page on which the `entryIframe` wait times out. -/
def pageNF : Page where
  navOk := true
  frameOk := false
  tier1 := fun _ => some []
  tier2 := some []
  tier3 := some []

/-- A page whose first Tier-1 selector matches one node whose trimmed
text is too short to be accepted (≤ 10 characters), while the second
selector matches a node with acceptable text. -/
def pageC3 : Page where
  navOk := true
  frameOk := true
  tier1 := fun s =>
    if s = ".zPfVt".data then some [some "short".data]
    else if s = ".YEtwtZFlx".data then some [some "a sufficiently long review".data]
    else some []
  tier2 := some []
  tier3 := some []

theorem tier_cascade_short_circuit_witness :
    Ev.tier2Query ∉ (crawl_reviews pageW Scope.top (some "u".data) 10).2.1 ∧
    Ev.tier3Query ∉ (crawl_reviews pageW Scope.top (some "u".data) 10).2.1 :=
  tier_cascade_short_circuit pageW Scope.top "u".data 10 rfl rfl rfl (by decide)

theorem crawl_reviews_scope_reset_witness :
    (crawl_reviews pageW Scope.inFrame (some "u".data) 5).2.2 = Scope.top ∧
    Ev.reset ∈ (crawl_reviews pageW Scope.inFrame (some "u".data) 5).2.1 :=
  crawl_reviews_scope_reset pageW Scope.inFrame (some "u".data) 5 rfl

theorem frame_entry_failure_empty_witness :
    crawl_reviews pageNF Scope.top (some "u".data) 10 =
      ([], [Ev.nav "u".data, Ev.frameAttempt, Ev.reset], Scope.top) :=
  frame_entry_failure_empty pageNF Scope.top "u".data 10 rfl rfl rfl

theorem crawl_reviews_absent_url_untouched_witness :
    crawl_reviews pageW Scope.inFrame (some "".data) 7 = ([], [], Scope.inFrame) :=
  crawl_reviews_absent_url_untouched pageW Scope.inFrame (some "".data) 7 rfl

/-- C3 counterexample: on `pageC3` the first Tier-1 pattern `.zPfVt`
returns one matching node (whose trimmed text is rejected, being only 5
characters long), yet the later pattern `.YEtwtZFlx` is still queried —
refuting the claim that once some pattern returns ≥ 1 matching node no
later Tier-1 pattern is queried. -/
theorem tier1_matched_pattern_fallthrough_cex :
    pageC3.tier1 ".zPfVt".data = some [some "short".data] ∧
    (pyStrip "short".data).length ≤ 10 ∧
    Ev.tier1Query ".YEtwtZFlx".data ∈ (crawl_reviews pageC3 Scope.top (some "u".data) 10).2.1 := by
  refine ⟨rfl, by decide, by decide⟩

theorem tier1Loop_cons (page : Page) (m : Nat) (acc : List Str) (sel : Str)
    (rest : List Str) :
    tier1Loop page m acc (sel :: rest) =
      match page.tier1 sel with
      | none =>
        ((tier1Loop page m acc rest).1, Ev.tier1Query sel :: (tier1Loop page m acc rest).2)
      | some elements =>
        if elements.isEmpty then
          ((tier1Loop page m acc rest).1, Ev.tier1Query sel :: (tier1Loop page m acc rest).2)
        else
          if (collectT1 m acc elements).2 then
            ((tier1Loop page m (collectT1 m acc elements).1 rest).1,
             Ev.tier1Query sel :: (tier1Loop page m (collectT1 m acc elements).1 rest).2)
          else if (collectT1 m acc elements).1.isEmpty then
            ((tier1Loop page m (collectT1 m acc elements).1 rest).1,
             Ev.tier1Query sel :: (tier1Loop page m (collectT1 m acc elements).1 rest).2)
          else ((collectT1 m acc elements).1, [Ev.tier1Query sel]) := rfl

/-- A page whose first Tier-1 selector accepts one snippet and then
raises on the next element's text read: the accepted snippet is kept and
the cascade still continues to the next selector. -/
def pageT1E : Page where
  navOk := true
  frameOk := true
  tier1 := fun s =>
    if s = ".zPfVt".data then some [some "a first long review snippet".data, none]
    else some []
  tier2 := some []
  tier3 := some []

/-- C3 amended: Tier-1 collection stops at the first pattern whose
element scan completes without an exception and leaves the accepted
snippet list non-empty — later patterns are then never queried.  A
pattern whose element scan raises mid-loop falls through to the next
pattern keeping the snippets accepted before the exception (Tier 1 has
no inner `try`, so `el.text` raising lands in line 178's
`except: continue`, skipping the `if reviews: break` check), and a
pattern that matches nodes but yields zero accepted snippets falls
through likewise. -/
theorem tier1_first_clean_accept_wins (page : Page) (m : Nat) (sel : Str)
    (rest : List Str) (elements : List (Option Str)) (acc : List Str)
    (hfind : page.tier1 sel = some elements) (hne : elements ≠ []) :
    ((collectT1 m acc elements).2 = false → (collectT1 m acc elements).1 ≠ [] →
      tier1Loop page m acc (sel :: rest) =
        ((collectT1 m acc elements).1, [Ev.tier1Query sel])) ∧
    ((collectT1 m acc elements).2 = true →
      tier1Loop page m acc (sel :: rest) =
        ((tier1Loop page m (collectT1 m acc elements).1 rest).1,
         Ev.tier1Query sel :: (tier1Loop page m (collectT1 m acc elements).1 rest).2)) ∧
    ((collectT1 m acc elements).2 = false → (collectT1 m acc elements).1 = [] →
      tier1Loop page m acc (sel :: rest) =
        ((tier1Loop page m (collectT1 m acc elements).1 rest).1,
         Ev.tier1Query sel :: (tier1Loop page m (collectT1 m acc elements).1 rest).2)) := by
  have hel : elements.isEmpty = false := by
    cases elements with
    | nil => exact absurd rfl hne
    | cons a l => rfl
  refine ⟨?_, ?_, ?_⟩
  · intro herr hcol
    have hce : (collectT1 m acc elements).1.isEmpty = false := by
      cases hv : (collectT1 m acc elements).1 with
      | nil => exact absurd hv hcol
      | cons a l => rfl
    rw [tier1Loop_cons, hfind]
    simp only [hel, herr, hce, Bool.false_eq_true, ite_false]
  · intro herr
    rw [tier1Loop_cons, hfind]
    simp only [hel, herr, Bool.false_eq_true, ite_false, eq_self_iff_true, ite_true]
  · intro herr hcol
    have hce : (collectT1 m acc elements).1.isEmpty = true := by rw [hcol]; rfl
    rw [tier1Loop_cons, hfind]
    simp only [hel, herr, hce, Bool.false_eq_true, ite_false, eq_self_iff_true, ite_true]

theorem tier1_first_clean_accept_wins_witness :
    tier1Loop pageT1E 10 [] (".zPfVt".data :: [".YEtwtZFlx".data, "span.Wzv5Z90S4".data]) =
      ((tier1Loop pageT1E 10
          (collectT1 10 [] [some "a first long review snippet".data, none]).1
          [".YEtwtZFlx".data, "span.Wzv5Z90S4".data]).1,
       Ev.tier1Query ".zPfVt".data ::
         (tier1Loop pageT1E 10
            (collectT1 10 [] [some "a first long review snippet".data, none]).1
            [".YEtwtZFlx".data, "span.Wzv5Z90S4".data]).2) :=
  (tier1_first_clean_accept_wins pageT1E 10 ".zPfVt".data
    [".YEtwtZFlx".data, "span.Wzv5Z90S4".data]
    [some "a first long review snippet".data, none] [] rfl (by decide)).2.1 (by decide)

/-- C4: the Tier-2 filter accepts a candidate text iff its length is
strictly between 20 and 1000 and it contains at least one keyword of the
first fixed keyword set; the Tier-3 filter accepts iff the length is
strictly between 20 and 500 and the text contains a keyword of the second
fixed set.  In particular texts of length exactly 20, 1000 or 500, or
with no keyword occurrence, are rejected. -/
theorem tier_filter_acceptance_iff (t : Str) :
    (tier2Accept t = true ↔
      20 < t.length ∧ t.length < 1000 ∧ ∃ kw ∈ kw_list2, ∃ a b, t = a ++ kw ++ b) ∧
    (tier3Accept t = true ↔
      20 < t.length ∧ t.length < 500 ∧ ∃ kw ∈ kw_list3, ∃ a b, t = a ++ kw ++ b) := by
  constructor
  · unfold tier2Accept
    simp only [Bool.and_eq_true, Bool.not_eq_true', decide_eq_true_eq, List.any_eq_true,
      strIn_iff_ex]
    constructor
    · rintro ⟨⟨⟨hne, h20⟩, h1000⟩, kw, hkw, hin⟩
      exact ⟨h20, h1000, kw, hkw, hin⟩
    · rintro ⟨h20, h1000, kw, hkw, hin⟩
      refine ⟨⟨⟨?_, h20⟩, h1000⟩, kw, hkw, hin⟩
      cases t with
      | nil => simp at h20
      | cons a l => rfl
  · unfold tier3Accept
    simp only [Bool.and_eq_true, decide_eq_true_eq, List.any_eq_true, strIn_iff_ex]
    constructor
    · rintro ⟨⟨h20, h500⟩, kw, hkw, hin⟩
      exact ⟨h20, h500, kw, hkw, hin⟩
    · rintro ⟨h20, h500, kw, hkw, hin⟩
      exact ⟨⟨h20, h500⟩, kw, hkw, hin⟩

theorem searchLoop_cons (pg : SearchPage) (sel : Str) (rest : List Str) :
    searchLoop pg (sel :: rest) =
      match pg.find sel with
      | none => ((searchLoop pg rest).1, sel :: (searchLoop pg rest).2)
      | some [] => ((searchLoop pg rest).1, sel :: (searchLoop pg rest).2)
      | some (none :: _) => ((searchLoop pg rest).1, sel :: (searchLoop pg rest).2)
      | some (some h :: _) => (some (rewriteToReview h), [sel]) := rfl

/-- A search-result page whose first (most specific) pattern matches one
link whose `href` read raises, while the second pattern matches a link
with a readable `href`. -/
def pgC8 : SearchPage where
  find := fun s =>
    if s = sel_place1 then some [none]
    else if s = sel_place2 then some [some "https://m.place.naver.com/place/77".data]
    else some []

/-- C8 counterexample: on `pgC8` the first pattern yields one matching
link, yet — the link's `href` read raising into the `except: continue`
of line 128 — the second pattern is still queried and the returned URL
is derived from the second pattern's link: the first pattern yielding at
least one match did not win. -/
theorem search_matched_pattern_fallthrough_cex :
    pgC8.find sel_place1 = some [none] ∧
    (search_naver_place pgC8).2 = [sel_place1, sel_place2] ∧
    (search_naver_place pgC8).1 =
      some (rewriteToReview "https://m.place.naver.com/place/77".data) := by
  refine ⟨rfl, by decide, by decide⟩

/-- C8 amended: the ordered link patterns are tried most-specific first
and the first pattern that yields at least one match AND whose first
link's `href` is successfully read wins: later patterns are then never
tried and the returned URL is the rewritten `href` of that pattern's
first link.  A pattern with no matches, a raising query, or a failing
`href` read falls through to the next pattern, and when every pattern
falls through the result is the not-found value `none`, not an error. -/
theorem search_first_successful_pattern_wins (pg : SearchPage) :
    (∀ sel rest h t, pg.find sel = some (some h :: t) →
        searchLoop pg (sel :: rest) = (some (rewriteToReview h), [sel])) ∧
    (∀ sel rest, (pg.find sel = none ∨ pg.find sel = some [] ∨
        ∃ t, pg.find sel = some (none :: t)) →
        searchLoop pg (sel :: rest) =
          ((searchLoop pg rest).1, sel :: (searchLoop pg rest).2)) ∧
    (∀ sels : List Str, (∀ sel ∈ sels, pg.find sel = none ∨ pg.find sel = some [] ∨
        ∃ t, pg.find sel = some (none :: t)) →
        searchLoop pg sels = (none, sels)) := by
  refine ⟨?_, ?_, ?_⟩
  · intro sel rest h t hfind
    rw [searchLoop_cons, hfind]
  · intro sel rest hf
    rcases hf with hf | hf | ⟨t, hf⟩ <;> rw [searchLoop_cons, hf]
  · intro sels hall
    induction sels with
    | nil => rfl
    | cons sel rest ih =>
      have hrest : ∀ s ∈ rest, pg.find s = none ∨ pg.find s = some [] ∨
          ∃ t, pg.find s = some (none :: t) := fun s hs =>
        hall s (List.mem_cons_of_mem sel hs)
      rcases hall sel (List.mem_cons_self sel rest) with hf | hf | ⟨t, hf⟩ <;>
        rw [searchLoop_cons, hf, ih hrest]

/-- A search-result page on which only the first (most specific) place
pattern matches, with one link whose `href` reads successfully. -/
def pgW : SearchPage where
  find := fun s =>
    if s = sel_place1 then some [some "https://m.place.naver.com/place/123?entry=pll".data]
    else some []

theorem search_first_successful_pattern_wins_witness :
    searchLoop pgW (sel_place1 :: [sel_place2, sel_place3]) =
      (some (rewriteToReview "https://m.place.naver.com/place/123?entry=pll".data),
       [sel_place1]) :=
  (search_first_successful_pattern_wins pgW).1 sel_place1 [sel_place2, sel_place3]
    "https://m.place.naver.com/place/123?entry=pll".data [] (by decide)

/-- C9 counterexample: a successful collaborator call whose response text
is empty ("returns nothing usable") makes `get_travel_destinations`
return the empty list for the known region 서울 — not the hardcoded
5-name fallback — so the caller does receive an empty destination list. -/
theorem destinations_empty_on_blank_cex :
    get_travel_destinations "서울".data (Except.ok "".data) = [] ∧
    default_destinations "서울".data =
      ["경복궁".data, "명동".data, "홍대".data, "강남".data, "한강공원".data] :=
  ⟨rfl, rfl⟩

/-- C9 amended: only when the collaborator call raises does
`get_travel_destinations` fall back to the hardcoded table — the 5-name
regional list for 서울/부산/경주 and the generic 5-item placeholder for
any other region, never empty; when the call succeeds, the parsed
response (possibly empty) is returned as-is. -/
theorem destinations_fallback_on_error (region : Str) (e : Unit) (t : Str) :
    get_travel_destinations region (Except.error e) = default_destinations region ∧
    (default_destinations region).length = 5 ∧
    default_destinations region ≠ [] ∧
    get_travel_destinations region (Except.ok t) = parse_destinations t := by
  refine ⟨rfl, ?_, ?_, rfl⟩
  · unfold default_destinations
    split
    · rfl
    · split
      · rfl
      · split
        · rfl
        · rfl
  · unfold default_destinations
    split
    · simp
    · split
      · simp
      · split
        · simp
        · simp

/-! ## Correctness of the `placePath` rewrite (C5) -/

theorem take_app_of_le {α : Type} (l₁ l₂ : List α) (n : Nat) (h : n ≤ l₁.length) :
    (l₁ ++ l₂).take n = l₁.take n := by
  rw [List.take_append_eq_append_take, Nat.sub_eq_zero_of_le h]
  simp

theorem ppKey_length : ppKey.length = 10 := rfl

theorem ppKey_no_border : ∀ n, n < 10 → 0 < n → ppKey.take (10 - n) ≠ ppKey.drop n := by
  decide

theorem dropValue_cons (c : Char) (rest : Str) :
    dropValue (c :: rest) = if c = '&' then c :: rest else dropValue rest := rfl

theorem dropValue_skip (v s : Str) (hv : ∀ c ∈ v, c ≠ '&')
    (hs : s = [] ∨ ∃ s', s = '&' :: s') : dropValue (v ++ s) = s := by
  induction v with
  | nil =>
    simp only [List.nil_append]
    rcases hs with rfl | ⟨s', rfl⟩
    · rfl
    · rw [dropValue_cons, if_pos rfl]
  | cons c v ih =>
    have hc : c ≠ '&' := hv c (List.mem_cons_self c v)
    rw [List.cons_append, dropValue_cons, if_neg hc]
    exact ih (fun x hx => hv x (List.mem_cons_of_mem c hx))

theorem subPlacePath_nil : subPlacePath [] = [] := by
  rw [subPlacePath]

theorem subPlacePath_no_occurrence (l : Str) (h : strIn ppKey l = false) :
    subPlacePath l = l := by
  induction l with
  | nil => exact subPlacePath_nil
  | cons c rest ih =>
    have hpre : ppKey.isPrefixOf (c :: rest) = false := by
      cases hv : ppKey.isPrefixOf (c :: rest) with
      | false => rfl
      | true =>
        rw [strIn_cons, hv, if_pos rfl] at h
        exact absurd h (by simp)
    rw [subPlacePath_cons, hpre]
    simp only [Bool.false_eq_true, ite_false]
    rw [ih (strIn_false_of_cons h)]

theorem ppKey_not_pre_mid (q Y : Str) (hq : q ≠ []) (hocc : strIn ppKey q = false) :
    ppKey.isPrefixOf (q ++ (ppKey ++ Y)) = false := by
  cases hv : ppKey.isPrefixOf (q ++ (ppKey ++ Y)) with
  | false => rfl
  | true =>
    exfalso
    rcases (isPrefixOf_iff_ex _ _).mp hv with ⟨t, ht⟩
    by_cases hlen : 10 ≤ q.length
    · have h1 : (q ++ (ppKey ++ Y)).take 10 = q.take 10 := take_app_of_le _ _ _ hlen
      have h2 : (ppKey ++ t).take 10 = ppKey := by
        rw [take_app_of_le ppKey t 10 (by decide)]
        rfl
      have hqt : q.take 10 = ppKey := by rw [← h1, ht, h2]
      have hcontra : strIn ppKey q = true := by
        rw [strIn_iff_ex]
        refine ⟨[], q.drop 10, ?_⟩
        rw [List.nil_append, ← hqt]
        exact (List.take_append_drop 10 q).symm
      rw [hcontra] at hocc
      exact Bool.true_eq_false.mp hocc
    · have hn : 0 < q.length := List.length_pos.mpr hq
      have h1 : (q ++ (ppKey ++ Y)).take q.length = q := by
        rw [take_app_of_le _ _ _ (Nat.le_refl _), List.take_length]
      have h2 : (ppKey ++ t).take q.length = ppKey.take q.length :=
        take_app_of_le _ _ _ (by rw [ppKey_length]; omega)
      have hq2 : q = ppKey.take q.length := by
        have e : (q ++ (ppKey ++ Y)).take q.length = (ppKey ++ t).take q.length := by rw [ht]
        rw [h1, h2] at e
        exact e
      have h3 : ppKey ++ Y = ppKey.drop q.length ++ t := by
        have hcopy := ht
        rw [hq2] at hcopy
        rw [show ppKey ++ t = ppKey.take q.length ++ (ppKey.drop q.length ++ t) by
              rw [← List.append_assoc, List.take_append_drop]] at hcopy
        exact List.append_cancel_left hcopy
      have h4 : ppKey.take (10 - q.length) = ppKey.drop q.length := by
        have l1 : (ppKey ++ Y).take (10 - q.length) = ppKey.take (10 - q.length) :=
          take_app_of_le _ _ _ (by rw [ppKey_length]; omega)
        have hdl : (ppKey.drop q.length).length = 10 - q.length := by
          rw [List.length_drop, ppKey_length]
        have l2 : (ppKey.drop q.length ++ t).take (10 - q.length) = ppKey.drop q.length := by
          rw [← hdl, take_app_of_le _ _ _ (Nat.le_refl _), List.take_length]
        rw [← l1, h3, l2]
      exact ppKey_no_border q.length (by omega) hn h4

theorem subPlacePath_single (v s : Str) (hv : ∀ c ∈ v, c ≠ '&')
    (hs : s = [] ∨ ∃ s', s = '&' :: s') (hsocc : strIn ppKey s = false) :
    ∀ p, strIn ppKey p = false →
      subPlacePath (p ++ (ppKey ++ (v ++ s))) = p ++ (ppRepl ++ s) := by
  intro p
  induction p with
  | nil =>
    intro _
    have hshape : ([] : Str) ++ (ppKey ++ (v ++ s)) =
        'p' :: ("lacePath=".data ++ (v ++ s)) := rfl
    rw [hshape, subPlacePath_cons]
    have hpre : ppKey.isPrefixOf ('p' :: ("lacePath=".data ++ (v ++ s))) = true := by
      rw [isPrefixOf_iff_ex]
      exact ⟨v ++ s, rfl⟩
    rw [hpre, if_pos rfl]
    have h9 : ("lacePath=".data ++ (v ++ s)).drop 9 = v ++ s := by
      rw [show (9 : Nat) = ("lacePath=".data).length from rfl]
      exact List.drop_left _ _
    rw [h9, dropValue_skip v s hv hs, subPlacePath_no_occurrence s hsocc]
    rfl
  | cons c p' ih =>
    intro hocc
    have hocc' := strIn_false_of_cons hocc
    have hpre : ppKey.isPrefixOf ((c :: p') ++ (ppKey ++ (v ++ s))) = false :=
      ppKey_not_pre_mid (c :: p') (v ++ s) (by simp) hocc
    have hshape : (c :: p') ++ (ppKey ++ (v ++ s)) =
        c :: (p' ++ (ppKey ++ (v ++ s))) := rfl
    rw [hshape] at hpre ⊢
    rw [subPlacePath_cons, hpre]
    simp only [Bool.false_eq_true, ite_false]
    rw [ih hocc']
    rfl

/-- C5: the view-selector rewrite maps a URL containing one
`placePath` parameter (key, a value free of `&`, then either the end of
the URL or the next `&`-separated component) to the same URL with the
parameter's value replaced by `/review`, and appends the literal
`&placePath=/review` to a URL that contains no `placePath` parameter. -/
theorem place_url_review_rewrite :
    (∀ p v s, strIn ppKey p = false → (∀ c ∈ v, c ≠ '&') →
      (s = [] ∨ ∃ s', s = '&' :: s') → strIn ppKey s = false →
      rewriteToReview (p ++ ppKey ++ v ++ s) = p ++ ppRepl ++ s) ∧
    (∀ url, strIn ppKey url = false → rewriteToReview url = url ++ ppAppend) := by
  constructor
  · intro p v s hp hv hs hsocc
    have hocc : strIn ppKey (p ++ ppKey ++ v ++ s) = true := by
      rw [strIn_iff_ex]
      exact ⟨p, v ++ s, by simp [List.append_assoc]⟩
    unfold rewriteToReview
    rw [hocc, if_pos rfl]
    calc subPlacePath (p ++ ppKey ++ v ++ s)
        = subPlacePath (p ++ (ppKey ++ (v ++ s))) := by
          rw [List.append_assoc, List.append_assoc]
      _ = p ++ (ppRepl ++ s) := subPlacePath_single v s hv hs hsocc p hp
      _ = p ++ ppRepl ++ s := (List.append_assoc _ _ _).symm
  · intro url hocc
    unfold rewriteToReview
    rw [hocc]
    simp

theorem place_url_review_rewrite_witness :
    rewriteToReview
        ("https://map.naver.com/p?c=1&".data ++ ppKey ++ "/menu".data ++ "&x=1".data) =
      "https://map.naver.com/p?c=1&".data ++ ppRepl ++ "&x=1".data ∧
    rewriteToReview "https://map.naver.com/p?c=1".data =
      "https://map.naver.com/p?c=1".data ++ ppAppend :=
  ⟨place_url_review_rewrite.1 "https://map.naver.com/p?c=1&".data "/menu".data "&x=1".data
     (by decide) (by decide) (Or.inr ⟨"x=1".data, rfl⟩) (by decide),
   place_url_review_rewrite.2 "https://map.naver.com/p?c=1".data (by decide)⟩
